import Mathlib

/-
Verification of the todo-list core of sean1093/react-todo-list.

The behavioral core of the repository is:
  - Control.js (src/unnamed/part_002): `onAddItem` builds a timestamp-string
    id and sets the list to `[...list, { value, id }]`; the input `onChange`
    handler replaces the pending text buffer.
  - Content.js (src/app/src/components/Content.js): `onRemove` reads
    `e?.target?.id` (possibly undefined) and sets the list to
    `list.filter(item => item.id !== id)`.
  - App.js: owns the list state, created empty, and hands `(list, setList)`
    to both components.

Snapshots are modelled as pure `List Entry` values, the click-event target id
as `Option String` (none = JS undefined), and the combined Control/App state
as a `buffer`/`store` pair.
-/

namespace ReactTodoList

/-- One todo record as built by `onAddItem`: `{ value: value, id: timestamp-string }`. -/
structure Entry where
  id : String
  value : String
deriving Repr, DecidableEq

/-- Embeds `onAddItem` from Control.js: the timestamp is `(new Date).getTime()`
(milliseconds, here an explicit `Nat` parameter), the id its decimal string, and
the new list is `[...list, { value: value, id }]`. -/
def onAddItem (list : List Entry) (value : String) (timestamp : Nat) : List Entry :=
  list ++ [{ id := toString timestamp, value := value }]

/-- JS strict inequality `a !== b` between a string `a` and a possibly-undefined
value `b` (`none` models `undefined`): a string is never strictly equal to
`undefined`, otherwise the comparison is string inequality. -/
def strictNeq (a : String) (b : Option String) : Bool :=
  match b with
  | none => true
  | some s => a != s

/-- Embeds `onRemove` from Content.js: given the click-event target id
`e?.target?.id` (possibly undefined), the new list is
`list.filter(item => item.id !== id)`. -/
def onRemove (list : List Entry) (targetId : Option String) : List Entry :=
  list.filter (fun item => strictNeq item.id targetId)

/-- Removal by a definite id string, the defined-target case of `onRemove`. -/
def removeById (list : List Entry) (id : String) : List Entry :=
  onRemove list (some id)

/-- Combined application state: `buffer` is Control.js's `value` useState,
`store` is App.js's `list` useState. -/
structure AppState where
  buffer : String
  store : List Entry
deriving Repr, DecidableEq

/-- Embeds the input `onChange` handler in Control.js:
`setValue(e?.target?.value)` with a string target value. -/
def onTextChange (st : AppState) (newText : String) : AppState :=
  { st with buffer := newText }

/-- Embeds a click of the Add button: `onAddItem` appends the entry built from
the current buffer, then `setValue('')` clears the buffer. -/
def onSubmit (st : AppState) (timestamp : Nat) : AppState :=
  { buffer := "", store := onAddItem st.store st.buffer timestamp }

/-- Embeds a click on a rendered todo item: Content.js's `onRemove` replaces the
store, and Control.js's buffer is untouched. -/
def onEntryActivated (st : AppState) (targetId : Option String) : AppState :=
  { st with store := onRemove st.store targetId }

/-- The stores reached by a sequence of Add clicks `(value, timestamp)` starting
from App.js's initial empty list. -/
def appendAll (ps : List (String × Nat)) : List Entry :=
  ps.foldl (fun acc p => onAddItem acc p.1 p.2) []

/-- Retained and discarded entries of a filter partition the list's length. -/
theorem filter_id_length (l : List Entry) (i : String) :
    (l.filter (fun e => e.id != i)).length
      + (l.filter (fun e => e.id == i)).length = l.length := by
  induction l with
  | nil => simp
  | cons e t ih =>
    by_cases h : e.id = i
    · simp [List.filter_cons, h]
      omega
    · simp [List.filter_cons, h]
      omega

/-- Folding `onAddItem` over a list of `(value, timestamp)` pairs appends the
corresponding entries to the accumulator in order. -/
theorem foldl_onAddItem (ps : List (String × Nat)) (acc : List Entry) :
    ps.foldl (fun a p => onAddItem a p.1 p.2) acc
      = acc ++ ps.map (fun p => { id := toString p.2, value := p.1 }) := by
  induction ps generalizing acc with
  | nil => simp
  | cons p t ih =>
    rw [List.foldl_cons, ih]
    simp [onAddItem]

/-- C1: for every store snapshot and every string value, `onAddItem` produces a
new snapshot equal to the previous one with exactly one new entry added at the
end, whose id is the current time in milliseconds stringified and whose value is
the supplied string verbatim. -/
theorem C1_onAddItem_appends_timestamped_entry
    (list : List Entry) (value : String) (ts : Nat) :
    onAddItem list value ts = list ++ [{ id := toString ts, value := value }] ∧
    (onAddItem list value ts).length = list.length + 1 ∧
    (onAddItem list value ts).take list.length = list ∧
    (onAddItem list value ts).getLast? = some { id := toString ts, value := value } := by
  refine ⟨rfl, by simp [onAddItem], by simp [onAddItem], by simp [onAddItem]⟩

/-- C2: for every snapshot and every id string, `removeById` keeps exactly the
entries whose id differs from the given id, in their original relative order (it
is the filter by id-inequality), and the length drops by the number of matching
entries; in particular, when the id matches exactly one entry the result has
length (original length − 1). -/
theorem C2_removeById_filters_by_id (list : List Entry) (i : String) :
    removeById list i = list.filter (fun e => e.id != i) ∧
    (removeById list i).length + (list.filter (fun e => e.id == i)).length
      = list.length ∧
    ((list.filter (fun e => e.id == i)).length = 1 →
      (removeById list i).length = list.length - 1) := by
  have hfilter : removeById list i = list.filter (fun e => e.id != i) := by
    simp [removeById, onRemove, strictNeq]
  have hlen := filter_id_length list i
  refine ⟨hfilter, by rw [hfilter]; omega, ?_⟩
  intro h1
  rw [hfilter]
  omega

/-- Witness for C2: the exactly-one-match particular case on a concrete
two-entry snapshot. -/
theorem C2_witness :
    (([{ id := "1", value := "a" }, { id := "2", value := "b" }] :
        List Entry).filter (fun e => e.id == "1")).length = 1 ∧
    (removeById [{ id := "1", value := "a" }, { id := "2", value := "b" }] "1").length
      = ([{ id := "1", value := "a" }, { id := "2", value := "b" }] :
          List Entry).length - 1 :=
  ⟨by decide,
   (C2_removeById_filters_by_id
     [{ id := "1", value := "a" }, { id := "2", value := "b" }] "1").2.2 (by decide)⟩

/-- C4: performing the adds for values `v1..vn` (with arbitrary timestamps)
starting from App.js's empty initial list yields a snapshot of length n whose
entries appear in call order with the i-th value equal to vi. -/
theorem C4_appendAll_preserves_values_in_order (ps : List (String × Nat)) :
    (appendAll ps).length = ps.length ∧
    (appendAll ps).map Entry.value = ps.map Prod.fst := by
  have h := foldl_onAddItem ps []
  constructor
  · simp [appendAll, h]
  · simp [appendAll, h]

/-- C5: when no entry of the snapshot carries the given id (in particular on the
empty snapshot), `removeById` returns a snapshot equal to the input. -/
theorem C5_removeById_no_match_is_noop
    (list : List Entry) (i : String)
    (h : ∀ e ∈ list, e.id ≠ i) :
    removeById list i = list := by
  simp [removeById, onRemove, strictNeq]
  intro e he
  exact h e he

/-- Witness for C5 on a concrete snapshot with no matching id. -/
theorem C5_witness :
    (∀ e ∈ ([{ id := "1", value := "a" }] : List Entry), e.id ≠ "2") ∧
    removeById [{ id := "1", value := "a" }] "2" = [{ id := "1", value := "a" }] :=
  ⟨by decide, C5_removeById_no_match_is_noop [{ id := "1", value := "a" }] "2" (by decide)⟩

/-- C6: when two or more entries share the given id, `removeById` with that id
removes every entry carrying the id, not just the first: no retained entry has
that id, and the result is the filter keeping all other entries in order. -/
theorem C6_removeById_removes_all_duplicates
    (list : List Entry) (i : String)
    (h : 2 ≤ (list.filter (fun e => e.id == i)).length) :
    (∀ e ∈ removeById list i, e.id ≠ i) ∧
    removeById list i = list.filter (fun e => e.id != i) ∧
    (removeById list i).length + 2 ≤ list.length := by
  have hfilter : removeById list i = list.filter (fun e => e.id != i) := by
    simp [removeById, onRemove, strictNeq]
  have hlen := filter_id_length list i
  refine ⟨?_, hfilter, by rw [hfilter]; omega⟩
  intro e he
  rw [hfilter] at he
  simpa using (List.of_mem_filter he)

/-- Witness for C6 on a snapshot whose two entries share one id. -/
theorem C6_witness :
    2 ≤ (([{ id := "7", value := "a" }, { id := "7", value := "b" }] :
        List Entry).filter (fun e => e.id == "7")).length ∧
    ((∀ e ∈ removeById [{ id := "7", value := "a" }, { id := "7", value := "b" }] "7",
        e.id ≠ "7") ∧
      removeById [{ id := "7", value := "a" }, { id := "7", value := "b" }] "7"
        = ([{ id := "7", value := "a" }, { id := "7", value := "b" }] :
            List Entry).filter (fun e => e.id != "7") ∧
      (removeById [{ id := "7", value := "a" }, { id := "7", value := "b" }] "7").length + 2
        ≤ ([{ id := "7", value := "a" }, { id := "7", value := "b" }] :
            List Entry).length) :=
  ⟨by decide,
   C6_removeById_removes_all_duplicates
     [{ id := "7", value := "a" }, { id := "7", value := "b" }] "7" (by decide)⟩

/-- C7: for every pending-buffer state, a submit appends the current buffer
contents as-is to the store and then resets the buffer to the empty string; in
particular after `onTextChange "abc"` then a submit, the buffer is `""` and the
store has gained exactly one entry with value `"abc"`. -/
theorem C7_onSubmit_appends_buffer_then_clears (st : AppState) (ts : Nat) :
    (onSubmit st ts).buffer = "" ∧
    (onSubmit st ts).store = st.store ++ [{ id := toString ts, value := st.buffer }] ∧
    (onSubmit (onTextChange st "abc") ts).buffer = "" ∧
    (onSubmit (onTextChange st "abc") ts).store
      = st.store ++ [{ id := toString ts, value := "abc" }] ∧
    (onSubmit (onTextChange st "abc") ts).store.length = st.store.length + 1 := by
  refine ⟨rfl, rfl, rfl, rfl, ?_⟩
  simp [onSubmit, onTextChange, onAddItem]

/-- C8: `onAddItem` has no failure branch and succeeds on every input string,
including the empty string: adding `""` still appends one entry whose value is
the empty string. -/
theorem C8_onAddItem_accepts_empty_value (list : List Entry) (ts : Nat) :
    onAddItem list "" ts = list ++ [{ id := toString ts, value := "" }] ∧
    (onAddItem list "" ts).length = list.length + 1 ∧
    (onAddItem list "" ts).getLast? = some { id := toString ts, value := "" } := by
  refine ⟨rfl, by simp [onAddItem], by simp [onAddItem]⟩

/-- C9: the pending buffer and the store are independent: `onTextChange` replaces
the buffer verbatim and leaves the store unchanged (also when clearing the buffer
to `""`), and an entry activation changes only the store, never the buffer. -/
theorem C9_buffer_and_store_independent
    (st : AppState) (t : String) (targetId : Option String) :
    (onTextChange st t).buffer = t ∧
    (onTextChange st t).store = st.store ∧
    (onTextChange st "").store = st.store ∧
    (onEntryActivated st targetId).buffer = st.buffer :=
  ⟨rfl, rfl, rfl, rfl⟩

/-- C10: an entry-activation event whose target lacks an id (the optional-chained
lookup yields `undefined`, modelled as `none`) removes no entry: `onRemove` is
total and returns a snapshot with exactly the same entries, since every stored id
is a string and a string is never strictly equal to `undefined`. -/
theorem C10_onRemove_undefined_target_is_noop (list : List Entry) :
    onRemove list none = list := by
  simp [onRemove, strictNeq]

end ReactTodoList
